import Mathlib

/-!
Verification of the `ms-logistica` delivery-route microservice
(`src/services/logistica_service.py`, `src/domain/models.py`).

The service layer is shallowly embedded: the relational store is a record
of lists of rows, remote microservices (`ms-pedidos`, `ms-usuarios`) are
parameters (the fetched order list and the customer-detail lookup
function), and each use case is a pure function over the store.
-/

namespace MsLogistica

/-! ### Domain model (`src/domain/models.py`) -/

/-- `RutaEstado`: status of a delivery route. -/
inductive RutaEstado where
  | PLANEADA
  | EN_RUTA
  | FINALIZADA
  | CANCELADA
deriving DecidableEq, Repr

/-- `ParadaEstado`: status of a stop. -/
inductive ParadaEstado where
  | PENDIENTE
  | ENTREGADA
  | FALLIDA
deriving DecidableEq, Repr

/-- Row of table `ruta_entrega`.  Primary keys are modelled as `Nat`
(the service only ever compares them for equality); dates are modelled as
their ISO strings (only compared for equality). -/
structure RutaEntrega where
  id : Nat
  fecha : String
  estado : RutaEstado
deriving DecidableEq, Repr

/-- Row of table `parada`. -/
structure Parada where
  id : Nat
  ruta_id : Nat
  cliente_id : Option Int
  direccion : Option String
  ciudad : Option String
  estado : ParadaEstado
  orden : Nat
deriving DecidableEq, Repr

/-- Row of the bridge table `parada_pedido`; `pedido_id` is the 128-bit
value of the remote order UUID, modelled as `Nat`. -/
structure ParadaPedido where
  parada_id : Nat
  pedido_id : Nat
deriving DecidableEq, Repr

/-- The relational store: the three tables the service touches. -/
structure Store where
  rutas : List RutaEntrega
  paradas : List Parada
  vinculos : List ParadaPedido
deriving DecidableEq, Repr

/-- Modelled from the spec: the error taxonomy of `src/errors`
(module not present in the snapshot): `NotFoundError` maps to 404 and
`ConflictError` to 409 at the HTTP boundary. -/
inductive ServiceError where
  | notFound (msg : String)
  | conflict (msg : String)
deriving DecidableEq, Repr

/-! ### `_normalize` (logistica_service.py lines 30-34)

Python `str.strip()` / `str.casefold()` are modelled over the ASCII
range: whitespace is the usual ASCII whitespace set and case folding is
per-character lowercasing. -/

/-- Characters removed by `str.strip()` (ASCII whitespace). -/
def esEspacio (c : Char) : Bool :=
  c = ' ' || c = '\t' || c = '\n' || c = '\x0d' || c = '\x0b' || c = '\x0c'

/-- `str.strip()`: drop leading and trailing whitespace. -/
def pyStrip (s : String) : String :=
  ⟨((s.data.dropWhile esEspacio).reverse.dropWhile esEspacio).reverse⟩

/-- `str.casefold()`, modelled as per-character lowercasing. -/
def pyCasefold (s : String) : String :=
  ⟨s.data.map Char.toLower⟩

/-- `_normalize(s)`: `None` stays `None`; otherwise strip, and return
`None` if the stripped string is empty, else its casefold. -/
def _normalize (s : Option String) : Option String :=
  match s with
  | none => none
  | some s =>
    let t := pyStrip s
    if t = "" then none else some (pyCasefold t)

/-! ### Order-id parsing (`uuid.UUID(str(raw))`)

`uuid.UUID` strips every occurrence of `urn:` and `uuid:`, strips curly
braces at both ends, removes hyphens, and then requires exactly 32 hex
digits, whose value is the UUID.  A missing/`None` raw id stringifies to
`"None"` and never parses. -/

/-- Remove every occurrence of `tok` from `l`, scanning left to right
(Python `str.replace(tok, "")`).  `fuel` bounds the recursion; it is
always called with `fuel = l.length`, which suffices because every step
consumes at least one character. -/
def removeTok (tok : List Char) : Nat → List Char → List Char
  | 0, l => l
  | _ + 1, [] => []
  | n + 1, c :: cs =>
    if tok.isPrefixOf (c :: cs) ∧ tok ≠ [] then
      removeTok tok n ((c :: cs).drop tok.length)
    else
      c :: removeTok tok n cs

/-- `str.strip("{}")`: drop the characters `{` and `}` from both ends. -/
def stripLlaves (l : List Char) : List Char :=
  let esLlave := fun c => c = '\x7b' || c = '\x7d'
  ((l.dropWhile esLlave).reverse.dropWhile esLlave).reverse

/-- Value of one hex digit, `none` if the character is not a hex digit. -/
def hexVal (c : Char) : Option Nat :=
  if '0' ≤ c ∧ c ≤ '9' then some (c.toNat - '0'.toNat)
  else if 'a' ≤ c ∧ c ≤ 'f' then some (c.toNat - 'a'.toNat + 10)
  else if 'A' ≤ c ∧ c ≤ 'F' then some (c.toNat - 'A'.toNat + 10)
  else none

/-- Big-endian hex value of a digit list, `none` on a non-hex digit. -/
def hexNat : List Char → Nat → Option Nat
  | [], acc => some acc
  | c :: cs, acc =>
    match hexVal c with
    | none => none
    | some v => hexNat cs (acc * 16 + v)

/-- `uuid.UUID(s)`, returning the 128-bit value, or `none` if malformed. -/
def uuidParse (s : String) : Option Nat :=
  let l0 := s.data
  let l1 := removeTok ("urn:".data) l0.length l0
  let l2 := removeTok ("uuid:".data) l1.length l1
  let l3 := (stripLlaves l2).filter (fun c => c ≠ '-')
  if l3.length = 32 then hexNat l3 0 else none

/-- Parsing of the raw `id` field of a fetched order: a missing id
(`None`) never parses (`str(None) = "None"` is not a UUID). -/
def parsePid (raw : Option String) : Option Nat :=
  match raw with
  | none => none
  | some s => uuidParse s

/-! ### Dispatch notifier (`_ms_pedido_marcar_despachado`, lines 103-123)

`post i` tells whether the `i`-th remote POST attempt succeeds (a failed
attempt raises in the source; here it is `false`).  The embedding is
instrumented to also return the number of attempts performed. -/

/-- `MAX_RETRIES = 3`. -/
def MAX_RETRIES : Nat := 3

/-- The retry loop: try attempts `intento, intento+1, ...` while fuel
remains; returns `(success, attempts performed)`. -/
def marcarLoop (post : Nat → Bool) : Nat → Nat → Bool × Nat
  | _, 0 => (false, 0)
  | intento, n + 1 =>
    if post intento then (true, 1)
    else
      let r := marcarLoop post (intento + 1) n
      (r.1, r.2 + 1)

/-- `_ms_pedido_marcar_despachado`: up to `MAX_RETRIES` attempts,
returning `true` on the first success and `false` after exhausting all
attempts, together with the number of attempts performed. -/
def _ms_pedido_marcar_despachado (post : Nat → Bool) : Bool × Nat :=
  marcarLoop post 1 MAX_RETRIES

/-! ### Status transition engine (`actualizar_estado_parada`, lines 261-300) -/

/-- The `parada` table after `pa.estado = nuevo_estado; session.flush()`:
the row with primary key `parada_id` now carries `nuevo`. -/
def paradasActualizadas (paradas : List Parada) (parada_id : Nat)
    (nuevo : ParadaEstado) : List Parada :=
  paradas.map (fun p => if p.id = parada_id then { p with estado := nuevo } else p)

/-- `ruta.paradas`: the stops of route `rid`. -/
def paradasDeRuta (paradas : List Parada) (rid : Nat) : List Parada :=
  paradas.filter (fun p => decide (p.ruta_id = rid))

/-- `actualizar_estado_parada(session, parada_id, nuevo_estado)`:
load the stop (404), load its route (404), write the new stop status,
move a PLANEADA route to EN_RUTA when the new status is ENTREGADA or
FALLIDA, and recompute: if every stop of the route is ENTREGADA (and
there is at least one), the route becomes FINALIZADA.  Returns the new
store and the updated stop. -/
def actualizar_estado_parada (s : Store) (parada_id : Nat)
    (nuevo : ParadaEstado) : Except ServiceError (Store × Parada) :=
  match s.paradas.find? (fun p => decide (p.id = parada_id)) with
  | none => .error (.notFound ("Parada no encontrada"))
  | some pa =>
    match s.rutas.find? (fun r => decide (r.id = pa.ruta_id)) with
    | none => .error (.notFound ("Ruta no encontrada para la parada"))
    | some ruta =>
      let paradas' := paradasActualizadas s.paradas parada_id nuevo
      let est1 : RutaEstado :=
        if ruta.estado = .PLANEADA ∧ (nuevo = .ENTREGADA ∨ nuevo = .FALLIDA) then
          .EN_RUTA
        else ruta.estado
      let estados := (paradasDeRuta paradas' ruta.id).map (·.estado)
      let est2 : RutaEstado :=
        if estados ≠ [] ∧ ∀ st ∈ estados, st = ParadaEstado.ENTREGADA then
          .FINALIZADA
        else est1
      let rutas' := s.rutas.map
        (fun r => if r.id = ruta.id then { r with estado := est2 } else r)
      .ok (⟨rutas', paradas', s.vinculos⟩, { pa with estado := nuevo })

/-- A sequence of `updateStopStatus` calls; a call that errors leaves the
store unchanged (the exception propagates before any mutation). -/
def runActualizaciones (s : Store) : List (Nat × ParadaEstado) → Store
  | [] => s
  | (pid, e) :: rest =>
    match actualizar_estado_parada s pid e with
    | .ok (s', _) => runActualizaciones s' rest
    | .error _ => runActualizaciones s rest

/-- Status of route `rid` in store `s` (first row with that id). -/
def estadoRuta (s : Store) (rid : Nat) : Option RutaEstado :=
  (s.rutas.find? (fun r => decide (r.id = rid))).map (·.estado)

/-! ### Route aggregation (`generar_ruta`, lines 128-237)

The two remote services are parameters: `pedidos` is the list fetched
from `ms-pedidos` (each order carries its raw `id` field and optional
`cliente_id`), and `detalle` is the output of `_ms_usuarios_detalle` for
a non-zero customer id — the pair `(direccion, ciudad)` already mapped
from the remote payload, `(none, none)` when the remote call failed. -/

/-- One fetched order record, as used by `generar_ruta`. -/
structure Pedido where
  id : Option String
  cliente_id : Option Int
deriving DecidableEq, Repr

/-- `_ms_usuarios_detalle` at the call site: a falsy customer id (`None`
or `0`) short-circuits to `(None, None)`; the per-call cache makes the
lookup a pure function of the customer id. -/
def detalleCliente (detalle : Int → Option String × Option String)
    (cid : Option Int) : Option String × Option String :=
  match cid with
  | none => (none, none)
  | some n => if n = 0 then (none, none) else detalle n

/-- Python `x or None` on an optional string: an empty string is falsy
and collapses to `None` (lines 179-180 read
`info.get("direccion") or info.get("address")` where the `"address"`
key is never present in `info`). -/
def oNone (s : Option String) : Option String :=
  match s with
  | none => none
  | some s => if s = "" then none else some s

/-- The raw `direccion` an order is enriched with. -/
def dirDe (detalle : Int → Option String × Option String) (ped : Pedido) :
    Option String :=
  oNone (detalleCliente detalle ped.cliente_id).1

/-- The raw `ciudad` an order is enriched with. -/
def ciuDe (detalle : Int → Option String × Option String) (ped : Pedido) :
    Option String :=
  oNone (detalleCliente detalle ped.cliente_id).2

/-- Grouping key `(cliente_id, _normalize(direccion), _normalize(ciudad))`. -/
abbrev GKey := Option Int × Option String × Option String

/-- One element of a group list: `(pid, cliente_id, direccion, ciudad)`
with the raw (non-normalized) enrichment values. -/
abbrev Entrada := Nat × Option Int × Option String × Option String

/-- The grouping key of an order. -/
def keyDe (detalle : Int → Option String × Option String) (ped : Pedido) :
    GKey :=
  (ped.cliente_id, _normalize (dirDe detalle ped), _normalize (ciuDe detalle ped))

/-- The group entry of an order with parsed id `pid`. -/
def entradaDe (detalle : Int → Option String × Option String) (ped : Pedido)
    (pid : Nat) : Entrada :=
  (pid, ped.cliente_id, dirDe detalle ped, ciuDe detalle ped)

/-- `grupos[key].append(e)` on an insertion-ordered dict modelled as an
association list: append to the existing group, else add a new group at
the end. -/
def addToGroups (gs : List (GKey × List Entrada)) (k : GKey) (e : Entrada) :
    List (GKey × List Entrada) :=
  match gs with
  | [] => [(k, [e])]
  | (k', l) :: rest =>
    if k' = k then (k', l ++ [e]) :: rest else (k', l) :: addToGroups rest k e

/-- The grouping loop (lines 167-183): orders with malformed ids are
skipped; each valid order is enriched and appended to its key's group. -/
def buildGroups (detalle : Int → Option String × Option String) :
    List Pedido → List (GKey × List Entrada) → List (GKey × List Entrada)
  | [], gs => gs
  | ped :: rest, gs =>
    match parsePid ped.id with
    | none => buildGroups detalle rest gs
    | some pid =>
      buildGroups detalle rest (addToGroups gs (keyDe detalle ped) (entradaDe detalle ped pid))

/-- `str(cliente_id)`: Python stringification of the optional int. -/
def strCliente (c : Option Int) : String :=
  match c with
  | none => "None"
  | some n => toString n

/-- The sort key of a group (line 194):
`(str(cliente_id), ciudad or "", direccion or "")` — note the city comes
before the address, and both are the normalized values of the group key. -/
def claveOrden (k : GKey) : String × String × String :=
  (strCliente k.1, k.2.2.getD "", k.2.1.getD "")

/-- Lexicographic order on string triples (Python tuple comparison). -/
def tripleLe (a b : String × String × String) : Prop :=
  a.1 < b.1 ∨ (a.1 = b.1 ∧ (a.2.1 < b.2.1 ∨ (a.2.1 = b.2.1 ∧ a.2.2 ≤ b.2.2)))

instance : DecidableRel tripleLe := fun a b => by
  unfold tripleLe; infer_instance

/-- Group comparison used by `sorted(grupos.items(), key=...)`. -/
def grupoLe (a b : GKey × List Entrada) : Prop :=
  tripleLe (claveOrden a.1) (claveOrden b.1)

instance : DecidableRel grupoLe := fun a b => by
  unfold grupoLe; infer_instance

/-- The sorted group list of a fetch result (`sorted` is a stable
comparison sort; ties are impossible here because `claveOrden` is
injective on reachable keys, so insertion sort computes the same list). -/
def gruposOrdenados (detalle : Int → Option String × Option String)
    (pedidos : List Pedido) : List (GKey × List Entrada) :=
  List.insertionSort grupoLe (buildGroups detalle pedidos [])

/-- A created stop together with its order links (`parada.pedidos`). -/
structure ParadaConPedidos where
  parada : Parada
  pedido_ids : List Nat
deriving DecidableEq, Repr

/-- The stop-creation loop (lines 193-215): one `Parada` per group, with
`orden = idx + 1` and the raw customer/address/city of the group's first
order; ids are drawn sequentially from `nid`.  (A group is never empty;
the `[]` branch is unreachable.) -/
def mkParadas (rutaId : Nat) : Nat → Nat → List (GKey × List Entrada) →
    List ParadaConPedidos
  | _, _, [] => []
  | nid, idx, (_, lista) :: rest =>
    match lista with
    | [] => mkParadas rutaId nid (idx + 1) rest
    | (_, cli0, dir0, ciu0) :: _ =>
      ⟨⟨nid, rutaId, cli0, dir0, ciu0, .PENDIENTE, idx + 1⟩,
        lista.map (fun e => e.1)⟩ :: mkParadas rutaId (nid + 1) (idx + 1) rest

/-- All entries of a group list, in group order. -/
def entradas (gs : List (GKey × List Entrada)) : List Entrada :=
  gs.flatMap (fun g => g.2)

/-- The entries contributed by the orders with parseable ids, in fetch
order. -/
def entradasValidas (detalle : Int → Option String × Option String) :
    List Pedido → List Entrada
  | [] => []
  | ped :: rest =>
    match parsePid ped.id with
    | none => entradasValidas detalle rest
    | some pid => entradaDe detalle ped pid :: entradasValidas detalle rest

/-- Result of a successful `generar_ruta`: the committed store, the new
route, its stops with their order links (`ruta.paradas` as returned),
and the ids for which a mark-dispatched call was attempted. -/
structure GenResult where
  store : Store
  ruta : RutaEntrega
  paradas : List ParadaConPedidos
  despachos : List Nat
deriving Repr

/-- `generar_ruta(session, fecha, ...)`: empty fetch fails with
`NotFoundError` (fixed message); an existing non-cancelled route for the
date fails with `ConflictError`; otherwise group, sort, persist route +
stops + links as one commit, then attempt a mark-dispatched call for
every valid fetched order id.  Fresh primary keys are drawn from
`nextId`. -/
def generar_ruta (s : Store) (fecha : String) (pedidos : List Pedido)
    (detalle : Int → Option String × Option String) (nextId : Nat) :
    Except ServiceError GenResult :=
  if pedidos = [] then
    .error (.notFound ("No hay ventas para generar ruta de entrega en la fecha seleccionada."))
  else
    match s.rutas.find? (fun r => r.fecha = fecha && decide (r.estado ≠ .CANCELADA)) with
    | some ya =>
      .error (.conflict ("Ya existe una ruta para " ++ fecha ++ " (id=" ++ toString ya.id ++ ")"))
    | none =>
      let gs := gruposOrdenados detalle pedidos
      let ruta : RutaEntrega := ⟨nextId, fecha, .PLANEADA⟩
      let ps := mkParadas nextId (nextId + 1) 0 gs
      let links := ps.flatMap
        (fun pc => pc.pedido_ids.map (fun pid => ⟨pc.parada.id, pid⟩))
      let s' : Store :=
        ⟨s.rutas ++ [ruta], s.paradas ++ ps.map (·.parada), s.vinculos ++ links⟩
      .ok ⟨s', ruta, ps, pedidos.filterMap (fun p => parsePid p.id)⟩

/-! ## Theorems -/

/-- C5: when the order fetch returns an empty result, `generar_ruta`
fails with `NotFoundError` carrying exactly the message
"No hay ventas para generar ruta de entrega en la fecha seleccionada.",
for every store — in particular also for a store that already has a
non-cancelled route for the date, so the empty-fetch check precedes the
duplicate-date check; the error return creates no route. -/
theorem C5_sin_pedidos (s : Store) (fecha : String)
    (detalle : Int → Option String × Option String) (nextId : Nat) :
    generar_ruta s fecha [] detalle nextId =
      .error (.notFound ("No hay ventas para generar ruta de entrega en la fecha seleccionada.")) :=
  rfl

/-- C4: if some non-cancelled route already exists for the date and the
fetch is non-empty, `generar_ruta` fails with `ConflictError`; since
errors return no new store, no second route, stop or link is created. -/
theorem C4_ruta_duplicada (s : Store) (fecha : String) (pedidos : List Pedido)
    (detalle : Int → Option String × Option String) (nextId : Nat)
    (hne : pedidos ≠ [])
    (hconf : ∃ r ∈ s.rutas, r.fecha = fecha ∧ r.estado ≠ RutaEstado.CANCELADA) :
    ∃ m, generar_ruta s fecha pedidos detalle nextId = .error (.conflict m) := by
  have hsome : (s.rutas.find?
      (fun r => r.fecha = fecha && decide (r.estado ≠ RutaEstado.CANCELADA))).isSome := by
    rw [List.find?_isSome]
    obtain ⟨r, hr, h1, h2⟩ := hconf
    exact ⟨r, hr, by simp [h1, h2]⟩
  obtain ⟨ya, hya⟩ := Option.isSome_iff_exists.mp hsome
  exact ⟨_, by unfold generar_ruta; rw [if_neg hne, hya]⟩

/-- Witness for C4 at a concrete store and fetch. -/
theorem C4_ruta_duplicada_witness :
    ∃ m, generar_ruta ⟨[⟨7, "2025-01-01", RutaEstado.PLANEADA⟩], [], []⟩
        ("2025-01-01") [⟨none, none⟩] (fun _ => (none, none)) 8 =
      .error (.conflict m) :=
  C4_ruta_duplicada _ _ _ _ _ (by decide)
    ⟨⟨7, "2025-01-01", RutaEstado.PLANEADA⟩, by decide, by decide⟩

/-- C6: the dispatch notifier never propagates the remote error: a post
that always fails is attempted exactly 3 times and returns `false`; a
post that fails twice then succeeds returns `true` after 3 attempts; it
returns `true` on the first successful attempt. -/
theorem C6_marcar_despachado (post : Nat → Bool) :
    ((∀ i, post i = false) → _ms_pedido_marcar_despachado post = (false, 3)) ∧
    (post 1 = false → post 2 = false → post 3 = true →
      _ms_pedido_marcar_despachado post = (true, 3)) ∧
    (post 1 = true → _ms_pedido_marcar_despachado post = (true, 1)) := by
  refine ⟨fun h => ?_, fun h1 h2 h3 => ?_, fun h1 => ?_⟩ <;>
    simp [_ms_pedido_marcar_despachado, MAX_RETRIES, marcarLoop, *]

/-- Witness for C6 at three concrete post behaviours. -/
theorem C6_marcar_despachado_witness :
    _ms_pedido_marcar_despachado (fun _ => false) = (false, 3) ∧
    _ms_pedido_marcar_despachado (fun i => decide (i = 3)) = (true, 3) ∧
    _ms_pedido_marcar_despachado (fun _ => true) = (true, 1) :=
  ⟨(C6_marcar_despachado _).1 (fun _ => rfl),
   (C6_marcar_despachado _).2.1 rfl rfl rfl,
   (C6_marcar_despachado _).2.2 rfl⟩

/-- C3: route state machine.  For a PLANEADA route with two PENDIENTE
stops, delivering the first yields EN_RUTA and then delivering the
second yields FINALIZADA (the first call exercises the
PLANEADA→EN_RUTA transition, the second the all-delivered→FINALIZADA
recomputation). -/
theorem C3_transiciones (rid pid1 pid2 : Nat) (fecha : String)
    (c1 c2 : Option Int) (d1 d2 ci1 ci2 : Option String)
    (vs : List ParadaPedido) (hne : pid1 ≠ pid2) :
    ∃ s1 pa1 s2 pa2,
      actualizar_estado_parada
        ⟨[⟨rid, fecha, RutaEstado.PLANEADA⟩],
         [⟨pid1, rid, c1, d1, ci1, ParadaEstado.PENDIENTE, 1⟩,
          ⟨pid2, rid, c2, d2, ci2, ParadaEstado.PENDIENTE, 2⟩], vs⟩
        pid1 ParadaEstado.ENTREGADA = .ok (s1, pa1) ∧
      estadoRuta s1 rid = some RutaEstado.EN_RUTA ∧
      actualizar_estado_parada s1 pid2 ParadaEstado.ENTREGADA = .ok (s2, pa2) ∧
      estadoRuta s2 rid = some RutaEstado.FINALIZADA := by
  have hne' : pid2 ≠ pid1 := Ne.symm hne
  refine ⟨⟨[⟨rid, fecha, RutaEstado.EN_RUTA⟩],
           [⟨pid1, rid, c1, d1, ci1, ParadaEstado.ENTREGADA, 1⟩,
            ⟨pid2, rid, c2, d2, ci2, ParadaEstado.PENDIENTE, 2⟩], vs⟩,
          ⟨pid1, rid, c1, d1, ci1, ParadaEstado.ENTREGADA, 1⟩,
          ⟨[⟨rid, fecha, RutaEstado.FINALIZADA⟩],
           [⟨pid1, rid, c1, d1, ci1, ParadaEstado.ENTREGADA, 1⟩,
            ⟨pid2, rid, c2, d2, ci2, ParadaEstado.ENTREGADA, 2⟩], vs⟩,
          ⟨pid2, rid, c2, d2, ci2, ParadaEstado.ENTREGADA, 2⟩, ?_, ?_, ?_, ?_⟩ <;>
    simp [actualizar_estado_parada, paradasActualizadas, paradasDeRuta,
      estadoRuta, List.find?, List.filter, hne, hne']

/-- Witness for C3 at concrete ids. -/
theorem C3_transiciones_witness :
    ∃ s1 pa1 s2 pa2,
      actualizar_estado_parada
        ⟨[⟨1, "2025-01-01", RutaEstado.PLANEADA⟩],
         [⟨10, 1, none, none, none, ParadaEstado.PENDIENTE, 1⟩,
          ⟨11, 1, none, none, none, ParadaEstado.PENDIENTE, 2⟩], []⟩
        10 ParadaEstado.ENTREGADA = .ok (s1, pa1) ∧
      estadoRuta s1 1 = some RutaEstado.EN_RUTA ∧
      actualizar_estado_parada s1 11 ParadaEstado.ENTREGADA = .ok (s2, pa2) ∧
      estadoRuta s2 1 = some RutaEstado.FINALIZADA :=
  C3_transiciones 1 10 11 ("2025-01-01") none none none none none none [] (by decide)

/-- Counterexample for C7: a DELIVERED stop is moved back to PENDING by
`actualizar_estado_parada` — the claimed terminality of DELIVERED/FAILED
is not enforced by the code. -/
theorem C7_counterexample :
    actualizar_estado_parada
      ⟨[⟨1, "d", RutaEstado.EN_RUTA⟩],
       [⟨10, 1, none, none, none, ParadaEstado.ENTREGADA, 1⟩], []⟩
      10 ParadaEstado.PENDIENTE =
    .ok (⟨[⟨1, "d", RutaEstado.EN_RUTA⟩],
          [⟨10, 1, none, none, none, ParadaEstado.PENDIENTE, 1⟩], []⟩,
         ⟨10, 1, none, none, none, ParadaEstado.PENDIENTE, 1⟩) :=
  rfl

/-- C7 amended: `actualizar_estado_parada` writes the requested status
unconditionally — after a successful call the stop's stored status (and
the returned stop) equals exactly the requested status, whatever the
previous status was; DELIVERED/FAILED are not terminal. -/
theorem C7_amended_estado_sobrescrito (s : Store) (pid : Nat)
    (nuevo : ParadaEstado) (s' : Store) (pa : Parada)
    (hok : actualizar_estado_parada s pid nuevo = .ok (s', pa)) :
    pa.estado = nuevo ∧ ∀ p ∈ s'.paradas, p.id = pid → p.estado = nuevo := by
  unfold actualizar_estado_parada at hok
  split at hok
  · exact absurd hok (by simp)
  · split at hok
    · exact absurd hok (by simp)
    · rw [Except.ok.injEq, Prod.mk.injEq] at hok
      obtain ⟨hs', hpa⟩ := hok
      subst hs' hpa
      refine ⟨rfl, fun p hp hid => ?_⟩
      simp only [paradasActualizadas, List.mem_map] at hp
      obtain ⟨q, _, heq⟩ := hp
      by_cases hq : q.id = pid
      · rw [if_pos hq] at heq; rw [← heq]
      · rw [if_neg hq] at heq; rw [← heq] at hid; exact absurd hid hq

/-- Witness for C7 amended: a FAILED stop set back to PENDING. -/
theorem C7_amended_witness :
    ∃ s' pa, actualizar_estado_parada
        ⟨[⟨1, "d", RutaEstado.EN_RUTA⟩],
         [⟨10, 1, none, none, none, ParadaEstado.FALLIDA, 1⟩], []⟩
        10 ParadaEstado.PENDIENTE = .ok (s', pa) ∧
      pa.estado = ParadaEstado.PENDIENTE ∧
      ∀ p ∈ s'.paradas, p.id = 10 → p.estado = ParadaEstado.PENDIENTE := by
  refine ⟨_, _, rfl, ?_⟩
  have h := C7_amended_estado_sobrescrito
    ⟨[⟨1, "d", RutaEstado.EN_RUTA⟩],
     [⟨10, 1, none, none, none, ParadaEstado.FALLIDA, 1⟩], []⟩
    10 ParadaEstado.PENDIENTE _ _ rfl
  exact h

/-- Counterexample for C8: delivering the only stop completes the route,
and a later FAILED update leaves the route FINALIZADA — so a route whose
stops all end FAILED can perfectly well have reached (and stay in)
COMPLETED, contradicting the claim for this update sequence. -/
theorem C8_counterexample :
    runActualizaciones
      ⟨[⟨1, "d", RutaEstado.PLANEADA⟩],
       [⟨10, 1, none, none, none, ParadaEstado.PENDIENTE, 1⟩], []⟩
      [(10, ParadaEstado.ENTREGADA), (10, ParadaEstado.FALLIDA)] =
    ⟨[⟨1, "d", RutaEstado.FINALIZADA⟩],
     [⟨10, 1, none, none, none, ParadaEstado.FALLIDA, 1⟩], []⟩ := by
  decide

/-- Step lemma: one `actualizar_estado_parada` call whose new status is
not ENTREGADA keeps every route in {PLANEADA, EN_RUTA} if all routes
were there before: the FINALIZADA recomputation cannot fire because the
updated stop itself is not ENTREGADA. -/
theorem actualizar_preserva_en_curso (s : Store) (pid : Nat)
    (nuevo : ParadaEstado) (s' : Store) (pa : Parada)
    (hnuevo : nuevo ≠ ParadaEstado.ENTREGADA)
    (hs : ∀ r ∈ s.rutas, r.estado = RutaEstado.PLANEADA ∨ r.estado = RutaEstado.EN_RUTA)
    (hok : actualizar_estado_parada s pid nuevo = .ok (s', pa)) :
    ∀ r ∈ s'.rutas, r.estado = RutaEstado.PLANEADA ∨ r.estado = RutaEstado.EN_RUTA := by
  unfold actualizar_estado_parada at hok
  split at hok
  · exact absurd hok (by simp)
  · rename_i pa0 hpa0
    split at hok
    · exact absurd hok (by simp)
    · rename_i ruta hruta
      rw [Except.ok.injEq, Prod.mk.injEq] at hok
      obtain ⟨hs', _⟩ := hok
      subst hs'
      intro r hr
      simp only [List.mem_map] at hr
      obtain ⟨q, hq, heq⟩ := hr
      by_cases hid : q.id = ruta.id
      · rw [if_pos hid] at heq
        subst heq
        -- the updated target stop belongs to the route and is not ENTREGADA
        have hmem : pa0 ∈ s.paradas := List.mem_of_find?_eq_some hpa0
        have hpid : pa0.id = pid := by
          have := List.find?_some hpa0; simpa using this
        have hrid : ruta.id = pa0.ruta_id := by
          have := List.find?_some hruta; simpa using this
        have himg : ({ pa0 with estado := nuevo } : Parada) ∈
            paradasActualizadas s.paradas pid nuevo := by
          simp only [paradasActualizadas, List.mem_map]
          exact ⟨pa0, hmem, by rw [if_pos hpid]⟩
        have hfil : ({ pa0 with estado := nuevo } : Parada) ∈
            paradasDeRuta (paradasActualizadas s.paradas pid nuevo) ruta.id := by
          simp only [paradasDeRuta, List.mem_filter]
          exact ⟨himg, by simp [hrid]⟩
        have hcond : ¬ (((paradasDeRuta (paradasActualizadas s.paradas pid nuevo)
            ruta.id).map (·.estado)) ≠ [] ∧
            ∀ st ∈ ((paradasDeRuta (paradasActualizadas s.paradas pid nuevo)
              ruta.id).map (·.estado)), st = ParadaEstado.ENTREGADA) := by
          rintro ⟨-, hall⟩
          exact hnuevo (hall nuevo (List.mem_map.mpr ⟨_, hfil, rfl⟩))
        rw [if_neg hcond]
        have hrm : ruta ∈ s.rutas := List.mem_of_find?_eq_some hruta
        by_cases hpl : ruta.estado = RutaEstado.PLANEADA ∧
            (nuevo = ParadaEstado.ENTREGADA ∨ nuevo = ParadaEstado.FALLIDA)
        · rw [if_pos hpl]; exact Or.inr rfl
        · rw [if_neg hpl]; exact hs ruta hrm
      · rw [if_neg hid] at heq
        subst heq
        exact hs q hq

/-- C8 amended: under any sequence of `updateStopStatus` calls none of
which sets a stop to DELIVERED (in particular a sequence that only sets
stops to FAILED), every route that starts in PLANNED or IN_PROGRESS
stays in {PLANNED, IN_PROGRESS} and never reaches COMPLETED.  The
unrestricted claim fails because a stop can be updated again after
DELIVERED: delivering every stop completes the route and later FAILED
updates leave it COMPLETED (see the counterexample). -/
theorem C8_amended_nunca_finalizada (updates : List (Nat × ParadaEstado))
    (s : Store)
    (hupd : ∀ u ∈ updates, u.2 ≠ ParadaEstado.ENTREGADA)
    (hs : ∀ r ∈ s.rutas, r.estado = RutaEstado.PLANEADA ∨ r.estado = RutaEstado.EN_RUTA) :
    ∀ r ∈ (runActualizaciones s updates).rutas,
      r.estado = RutaEstado.PLANEADA ∨ r.estado = RutaEstado.EN_RUTA := by
  induction updates generalizing s with
  | nil => exact hs
  | cons u rest ih =>
    obtain ⟨pid, e⟩ := u
    show ∀ r ∈ (runActualizaciones s ((pid, e) :: rest)).rutas, _
    have he : e ≠ ParadaEstado.ENTREGADA := hupd (pid, e) (List.mem_cons_self _ _)
    have hrest : ∀ u ∈ rest, u.2 ≠ ParadaEstado.ENTREGADA :=
      fun u hu => hupd u (List.mem_cons_of_mem _ hu)
    unfold runActualizaciones
    cases hstep : actualizar_estado_parada s pid e with
    | ok out =>
      exact ih out.1 hrest
        (actualizar_preserva_en_curso s pid e out.1 out.2 he hs
          (by rw [hstep]))
    | error _ => exact ih s hrest hs

/-- Witness for C8 amended: one PLANEADA route whose only stop is set to
FALLIDA ends as the route ⟨1, "d", EN_RUTA⟩, which the amended theorem
places in {PLANEADA, EN_RUTA}. -/
theorem C8_amended_witness :
    (⟨1, "d", RutaEstado.EN_RUTA⟩ : RutaEntrega).estado = RutaEstado.PLANEADA ∨
    (⟨1, "d", RutaEstado.EN_RUTA⟩ : RutaEntrega).estado = RutaEstado.EN_RUTA :=
  C8_amended_nunca_finalizada [(10, ParadaEstado.FALLIDA)]
    ⟨[⟨1, "d", RutaEstado.PLANEADA⟩],
     [⟨10, 1, none, none, none, ParadaEstado.PENDIENTE, 1⟩], []⟩
    (by decide) (by decide) ⟨1, "d", RutaEstado.EN_RUTA⟩ (by decide)

/-- C10: the FINALIZADA recomputation ignores the route's current
status: whenever the stop and its route are found and, after writing the
new stop status, the route has at least one stop and all of them are
ENTREGADA, the call succeeds and sets the route to FINALIZADA whatever
its previous status — including CANCELADA (see the witness), which this
operation therefore moves out of its terminal state. -/
theorem C10_finalizada_ignora_estado (s : Store) (pid : Nat)
    (nuevo : ParadaEstado) (pa : Parada) (ruta : RutaEntrega)
    (hpa : s.paradas.find? (fun p => decide (p.id = pid)) = some pa)
    (hruta : s.rutas.find? (fun r => decide (r.id = pa.ruta_id)) = some ruta)
    (hne : paradasDeRuta (paradasActualizadas s.paradas pid nuevo) ruta.id ≠ [])
    (hall : ∀ p ∈ paradasDeRuta (paradasActualizadas s.paradas pid nuevo) ruta.id,
      p.estado = ParadaEstado.ENTREGADA) :
    ∃ s' pa', actualizar_estado_parada s pid nuevo = .ok (s', pa') ∧
      ∀ r ∈ s'.rutas, r.id = ruta.id → r.estado = RutaEstado.FINALIZADA := by
  have hcond : (((paradasDeRuta (paradasActualizadas s.paradas pid nuevo)
      ruta.id).map (·.estado)) ≠ [] ∧
      ∀ st ∈ ((paradasDeRuta (paradasActualizadas s.paradas pid nuevo)
        ruta.id).map (·.estado)), st = ParadaEstado.ENTREGADA) := by
    constructor
    · simpa using hne
    · intro st hst
      obtain ⟨p, hp, rfl⟩ := List.mem_map.mp hst
      exact hall p hp
  have hrun : actualizar_estado_parada s pid nuevo =
      .ok (⟨s.rutas.map (fun r =>
              if r.id = ruta.id then { r with estado := RutaEstado.FINALIZADA } else r),
            paradasActualizadas s.paradas pid nuevo, s.vinculos⟩,
           { pa with estado := nuevo }) := by
    unfold actualizar_estado_parada
    rw [hpa]
    simp only [hruta, if_pos hcond]
  refine ⟨_, _, hrun, ?_⟩
  intro r hr hid
  simp only [List.mem_map] at hr
  obtain ⟨q, _, heq⟩ := hr
  by_cases hq : q.id = ruta.id
  · rw [if_pos hq] at heq
    rw [← heq]
  · rw [if_neg hq] at heq
    rw [← heq] at hid
    exact absurd hid hq

/-- Witness for C10: a CANCELADA route whose single stop is re-marked
ENTREGADA becomes FINALIZADA. -/
theorem C10_finalizada_witness :
    ∃ s' pa', actualizar_estado_parada
        ⟨[⟨1, "d", RutaEstado.CANCELADA⟩],
         [⟨10, 1, none, none, none, ParadaEstado.ENTREGADA, 1⟩], []⟩
        10 ParadaEstado.ENTREGADA = .ok (s', pa') ∧
      ∀ r ∈ s'.rutas, r.id = 1 → r.estado = RutaEstado.FINALIZADA := by
  have h := C10_finalizada_ignora_estado
    ⟨[⟨1, "d", RutaEstado.CANCELADA⟩],
     [⟨10, 1, none, none, none, ParadaEstado.ENTREGADA, 1⟩], []⟩
    10 ParadaEstado.ENTREGADA
    ⟨10, 1, none, none, none, ParadaEstado.ENTREGADA, 1⟩
    ⟨1, "d", RutaEstado.CANCELADA⟩
    (by decide) (by decide) (by decide) (by decide)
  exact h

/-- Orders whose ids all fail to parse contribute no group. -/
theorem buildGroups_all_invalid (detalle : Int → Option String × Option String)
    (ps : List Pedido) (gs : List (GKey × List Entrada))
    (h : ∀ p ∈ ps, parsePid p.id = none) :
    buildGroups detalle ps gs = gs := by
  induction ps generalizing gs with
  | nil => rfl
  | cons p rest ih =>
    unfold buildGroups
    rw [h p (List.mem_cons_self _ _)]
    exact ih gs (fun q hq => h q (List.mem_cons_of_mem _ hq))

/-- C9: a non-empty fetch in which every order id is malformed does not
fail: `generar_ruta` commits and returns a PLANEADA route with zero
stops and zero links, and attempts no mark-dispatched call. -/
theorem C9_todos_invalidos (s : Store) (fecha : String) (pedidos : List Pedido)
    (detalle : Int → Option String × Option String) (nextId : Nat)
    (hne : pedidos ≠ [])
    (hbad : ∀ p ∈ pedidos, parsePid p.id = none)
    (hnoconf : ∀ r ∈ s.rutas, r.fecha = fecha → r.estado = RutaEstado.CANCELADA) :
    generar_ruta s fecha pedidos detalle nextId =
      .ok ⟨⟨s.rutas ++ [⟨nextId, fecha, RutaEstado.PLANEADA⟩], s.paradas, s.vinculos⟩,
           ⟨nextId, fecha, RutaEstado.PLANEADA⟩, [], []⟩ := by
  have hfind : s.rutas.find?
      (fun r => r.fecha = fecha && decide (r.estado ≠ RutaEstado.CANCELADA)) = none := by
    rw [List.find?_eq_none]
    intro r hr
    simp only [Bool.and_eq_true, decide_eq_true_eq, not_and, ne_eq, Decidable.not_not]
    intro h1
    exact hnoconf r hr h1
  have hgs : gruposOrdenados detalle pedidos = [] := by
    unfold gruposOrdenados
    rw [buildGroups_all_invalid detalle pedidos [] hbad]
    rfl
  have hdesp : pedidos.filterMap (fun p => parsePid p.id) = [] :=
    List.filterMap_eq_nil_iff.mpr hbad
  unfold generar_ruta
  rw [if_neg hne, hfind]
  simp [hgs, hdesp, mkParadas]

/-- Witness for C9: one order with an unparseable id. -/
theorem C9_todos_invalidos_witness :
    generar_ruta ⟨[], [], []⟩ ("2025-01-01") [⟨some ("not-a-uuid"), some 1⟩]
        (fun _ => (none, none)) 5 =
      .ok ⟨⟨[⟨5, "2025-01-01", RutaEstado.PLANEADA⟩], [], []⟩,
           ⟨5, "2025-01-01", RutaEstado.PLANEADA⟩, [], []⟩ := by
  have h := C9_todos_invalidos ⟨[], [], []⟩ ("2025-01-01")
    [⟨some ("not-a-uuid"), some 1⟩] (fun _ => (none, none)) 5
    (by decide) (by decide) (by decide)
  simpa using h

/-! ### The group sort order is a total preorder -/

theorem tripleLe_total (a b : String × String × String) :
    tripleLe a b ∨ tripleLe b a := by
  unfold tripleLe
  rcases lt_trichotomy a.1 b.1 with h1 | h1 | h1
  · exact Or.inl (Or.inl h1)
  · rcases lt_trichotomy a.2.1 b.2.1 with h2 | h2 | h2
    · exact Or.inl (Or.inr ⟨h1, Or.inl h2⟩)
    · rcases le_total a.2.2 b.2.2 with h3 | h3
      · exact Or.inl (Or.inr ⟨h1, Or.inr ⟨h2, h3⟩⟩)
      · exact Or.inr (Or.inr ⟨h1.symm, Or.inr ⟨h2.symm, h3⟩⟩)
    · exact Or.inr (Or.inr ⟨h1.symm, Or.inl h2⟩)
  · exact Or.inr (Or.inl h1)

theorem tripleLe_trans (a b c : String × String × String)
    (hab : tripleLe a b) (hbc : tripleLe b c) : tripleLe a c := by
  unfold tripleLe at *
  rcases hab with h1 | ⟨h1, h2⟩
  · rcases hbc with h1' | ⟨h1', _⟩
    · exact Or.inl (h1.trans h1')
    · exact Or.inl (h1' ▸ h1)
  · rcases hbc with h1' | ⟨h1', h2'⟩
    · exact Or.inl (h1 ▸ h1')
    · refine Or.inr ⟨h1.trans h1', ?_⟩
      rcases h2 with h2 | ⟨h2, h3⟩
      · rcases h2' with h2' | ⟨h2', _⟩
        · exact Or.inl (h2.trans h2')
        · exact Or.inl (h2' ▸ h2)
      · rcases h2' with h2' | ⟨h2', h3'⟩
        · exact Or.inl (h2 ▸ h2')
        · exact Or.inr ⟨h2.trans h2', h3.trans h3'⟩

instance : IsTotal (GKey × List Entrada) grupoLe :=
  ⟨fun a b => tripleLe_total (claveOrden a.1) (claveOrden b.1)⟩

instance : IsTrans (GKey × List Entrada) grupoLe :=
  ⟨fun a b c => tripleLe_trans (claveOrden a.1) (claveOrden b.1) (claveOrden c.1)⟩

/-! ### Structure of the created stops -/

theorem addToGroups_ne_nil (gs : List (GKey × List Entrada)) (k : GKey)
    (e : Entrada) (h : ∀ g ∈ gs, g.2 ≠ []) :
    ∀ g ∈ addToGroups gs k e, g.2 ≠ [] := by
  induction gs with
  | nil =>
    intro g hg
    simp only [addToGroups, List.mem_singleton] at hg
    subst hg
    simp
  | cons g0 rest ih =>
    obtain ⟨k', l⟩ := g0
    intro g hg
    unfold addToGroups at hg
    by_cases hk : k' = k
    · rw [if_pos hk] at hg
      rcases List.mem_cons.mp hg with rfl | hg'
      · simp
      · exact h g (List.mem_cons_of_mem _ hg')
    · rw [if_neg hk] at hg
      rcases List.mem_cons.mp hg with rfl | hg'
      · exact h _ (List.mem_cons_self _ _)
      · exact ih (fun g' hg'' => h g' (List.mem_cons_of_mem _ hg'')) g hg'

theorem buildGroups_ne_nil (detalle : Int → Option String × Option String)
    (ps : List Pedido) (gs : List (GKey × List Entrada))
    (h : ∀ g ∈ gs, g.2 ≠ []) :
    ∀ g ∈ buildGroups detalle ps gs, g.2 ≠ [] := by
  induction ps generalizing gs with
  | nil => exact h
  | cons p rest ih =>
    unfold buildGroups
    cases hp : parsePid p.id with
    | none => exact ih gs h
    | some pid => exact ih _ (addToGroups_ne_nil gs _ _ h)

theorem gruposOrdenados_ne_nil (detalle : Int → Option String × Option String)
    (pedidos : List Pedido) :
    ∀ g ∈ gruposOrdenados detalle pedidos, g.2 ≠ [] := by
  intro g hg
  have hmem : g ∈ buildGroups detalle pedidos [] :=
    (List.perm_insertionSort grupoLe _).mem_iff.mp hg
  exact buildGroups_ne_nil detalle pedidos [] (by simp) g hmem

/-- The `orden` values of the created stops are `idx+1, idx+2, ...`, one
per group. -/
theorem mkParadas_map_orden (rutaId : Nat) (gs : List (GKey × List Entrada))
    (h : ∀ g ∈ gs, g.2 ≠ []) :
    ∀ nid idx, (mkParadas rutaId nid idx gs).map (·.parada.orden) =
      List.range' (idx + 1) gs.length := by
  induction gs with
  | nil => intro nid idx; rfl
  | cons g rest ih =>
    intro nid idx
    obtain ⟨k, lista⟩ := g
    cases lista with
    | nil => exact absurd rfl (h ⟨k, []⟩ (List.mem_cons_self _ _))
    | cons e tail =>
      obtain ⟨pid, cli, dir, ciu⟩ := e
      show ((⟨⟨nid, rutaId, cli, dir, ciu, ParadaEstado.PENDIENTE, idx + 1⟩,
          ((pid, cli, dir, ciu) :: tail).map (fun e => e.1)⟩ : ParadaConPedidos) ::
        mkParadas rutaId (nid + 1) (idx + 1) rest).map (·.parada.orden) = _
      rw [List.map_cons,
        ih (fun g' hg' => h g' (List.mem_cons_of_mem _ hg')) (nid + 1) (idx + 1)]
      rfl

/-- Each created stop carries the raw customer id, address and city of
the first order of its group. -/
theorem mkParadas_primer_pedido (rutaId : Nat) (gs : List (GKey × List Entrada))
    (h : ∀ g ∈ gs, g.2 ≠ []) :
    ∀ nid idx, List.Forall₂ (fun (pc : ParadaConPedidos) (g : GKey × List Entrada) =>
        ∀ e ∈ g.2.head?, pc.parada.cliente_id = e.2.1 ∧
          pc.parada.direccion = e.2.2.1 ∧ pc.parada.ciudad = e.2.2.2)
      (mkParadas rutaId nid idx gs) gs := by
  induction gs with
  | nil => intro nid idx; exact List.Forall₂.nil
  | cons g rest ih =>
    intro nid idx
    obtain ⟨k, lista⟩ := g
    cases lista with
    | nil => exact absurd rfl (h ⟨k, []⟩ (List.mem_cons_self _ _))
    | cons e tail =>
      obtain ⟨pid, cli, dir, ciu⟩ := e
      refine List.Forall₂.cons ?_
        (ih (fun g' hg' => h g' (List.mem_cons_of_mem _ hg')) (nid + 1) (idx + 1))
      intro e' he'
      simp only [List.head?_cons, Option.mem_def, Option.some.injEq] at he'
      subst he'
      exact ⟨rfl, rfl, rfl⟩

/-- C2: for every route created by `generar_ruta`, the stop `orden`
values form the strictly increasing sequence `1, 2, ..., N` (one per
group); the groups are sorted ascending by
`(str(cliente_id), ciudad, direccion)` (the `grupoLe` order of line
194); and each stop carries the raw (non-normalized) customer id,
address and city of the first order of its group. -/
theorem C2_orden_y_representante (s : Store) (fecha : String)
    (pedidos : List Pedido) (detalle : Int → Option String × Option String)
    (nextId : Nat) (res : GenResult)
    (hok : generar_ruta s fecha pedidos detalle nextId = .ok res) :
    res.paradas.map (·.parada.orden) = List.range' 1 res.paradas.length ∧
    List.Pairwise grupoLe (gruposOrdenados detalle pedidos) ∧
    List.Forall₂ (fun (pc : ParadaConPedidos) (g : GKey × List Entrada) =>
        ∀ e ∈ g.2.head?, pc.parada.cliente_id = e.2.1 ∧
          pc.parada.direccion = e.2.2.1 ∧ pc.parada.ciudad = e.2.2.2)
      res.paradas (gruposOrdenados detalle pedidos) := by
  unfold generar_ruta at hok
  split at hok
  · exact absurd hok (by simp)
  · split at hok
    · exact absurd hok (by simp)
    · rw [Except.ok.injEq] at hok
      subst hok
      have hgne := gruposOrdenados_ne_nil detalle pedidos
      have horden := mkParadas_map_orden nextId (gruposOrdenados detalle pedidos)
        hgne (nextId + 1) 0
      have hlen : (mkParadas nextId (nextId + 1) 0 (gruposOrdenados detalle pedidos)).length =
          (gruposOrdenados detalle pedidos).length := by
        have := congrArg List.length horden
        simpa using this
      refine ⟨?_, ?_, ?_⟩
      · show (mkParadas nextId (nextId + 1) 0 (gruposOrdenados detalle pedidos)).map
          (·.parada.orden) = _
        rw [horden, hlen]
      · exact List.sorted_insertionSort grupoLe _
      · exact mkParadas_primer_pedido nextId _ hgne (nextId + 1) 0

/-- Witness for C2 at a concrete one-order fetch. -/
theorem C2_orden_witness :
    generar_ruta ⟨[], [], []⟩ ("d")
        [⟨some ("00000000000000000000000000000001"), some 1⟩]
        (fun _ => (some ("X"), some ("Y"))) 100 =
      .ok ⟨⟨[⟨100, "d", RutaEstado.PLANEADA⟩],
            [⟨101, 100, some 1, some ("X"), some ("Y"), ParadaEstado.PENDIENTE, 1⟩],
            [⟨101, 1⟩]⟩,
           ⟨100, "d", RutaEstado.PLANEADA⟩,
           [⟨⟨101, 100, some 1, some ("X"), some ("Y"), ParadaEstado.PENDIENTE, 1⟩, [1]⟩],
           [1]⟩ ∧
    ([(⟨⟨101, 100, some 1, some ("X"), some ("Y"), ParadaEstado.PENDIENTE, 1⟩,
        [1]⟩ : ParadaConPedidos)].map (·.parada.orden) =
      List.range' 1 [(⟨⟨101, 100, some 1, some ("X"), some ("Y"),
        ParadaEstado.PENDIENTE, 1⟩, [1]⟩ : ParadaConPedidos)].length ∧
     List.Pairwise grupoLe (gruposOrdenados (fun _ => (some ("X"), some ("Y")))
        [⟨some ("00000000000000000000000000000001"), some 1⟩]) ∧
     List.Forall₂ (fun (pc : ParadaConPedidos) (g : GKey × List Entrada) =>
        ∀ e ∈ g.2.head?, pc.parada.cliente_id = e.2.1 ∧
          pc.parada.direccion = e.2.2.1 ∧ pc.parada.ciudad = e.2.2.2)
      [⟨⟨101, 100, some 1, some ("X"), some ("Y"), ParadaEstado.PENDIENTE, 1⟩, [1]⟩]
      (gruposOrdenados (fun _ => (some ("X"), some ("Y")))
        [⟨some ("00000000000000000000000000000001"), some 1⟩])) :=
  ⟨rfl, C2_orden_y_representante ⟨[], [], []⟩ ("d")
    [⟨some ("00000000000000000000000000000001"), some 1⟩]
    (fun _ => (some ("X"), some ("Y"))) 100
    ⟨⟨[⟨100, "d", RutaEstado.PLANEADA⟩],
      [⟨101, 100, some 1, some ("X"), some ("Y"), ParadaEstado.PENDIENTE, 1⟩],
      [⟨101, 1⟩]⟩,
     ⟨100, "d", RutaEstado.PLANEADA⟩,
     [⟨⟨101, 100, some 1, some ("X"), some ("Y"), ParadaEstado.PENDIENTE, 1⟩, [1]⟩],
     [1]⟩ (by rfl)⟩

/-! ### Grouping bookkeeping for C1 -/

theorem buildGroups_cons_none (detalle : Int → Option String × Option String)
    (p : Pedido) (rest : List Pedido) (gs : List (GKey × List Entrada))
    (hp : parsePid p.id = none) :
    buildGroups detalle (p :: rest) gs = buildGroups detalle rest gs := by
  conv_lhs => rw [buildGroups]
  rw [hp]

theorem buildGroups_cons_some (detalle : Int → Option String × Option String)
    (p : Pedido) (rest : List Pedido) (gs : List (GKey × List Entrada))
    (pid : Nat) (hp : parsePid p.id = some pid) :
    buildGroups detalle (p :: rest) gs =
      buildGroups detalle rest (addToGroups gs (keyDe detalle p) (entradaDe detalle p pid)) := by
  conv_lhs => rw [buildGroups]
  rw [hp]

theorem entradasValidas_cons_none (detalle : Int → Option String × Option String)
    (p : Pedido) (rest : List Pedido) (hp : parsePid p.id = none) :
    entradasValidas detalle (p :: rest) = entradasValidas detalle rest := by
  conv_lhs => rw [entradasValidas]
  rw [hp]

theorem entradasValidas_cons_some (detalle : Int → Option String × Option String)
    (p : Pedido) (rest : List Pedido) (pid : Nat) (hp : parsePid p.id = some pid) :
    entradasValidas detalle (p :: rest) =
      entradaDe detalle p pid :: entradasValidas detalle rest := by
  conv_lhs => rw [entradasValidas]
  rw [hp]

theorem entradas_cons (g : GKey × List Entrada) (rest : List (GKey × List Entrada)) :
    entradas (g :: rest) = g.2 ++ entradas rest := by
  simp [entradas]

/-- `addToGroups` adds exactly the new entry (up to group order). -/
theorem entradas_addToGroups (gs : List (GKey × List Entrada)) (k : GKey)
    (e : Entrada) : (entradas (addToGroups gs k e)).Perm (entradas gs ++ [e]) := by
  induction gs with
  | nil => simp [addToGroups, entradas]
  | cons g rest ih =>
    obtain ⟨k', l⟩ := g
    unfold addToGroups
    by_cases hk : k' = k
    · rw [if_pos hk, entradas_cons, entradas_cons]
      have h1 : (l ++ [e]) ++ MsLogistica.entradas rest =
          l ++ ([e] ++ MsLogistica.entradas rest) := by rw [List.append_assoc]
      have h2 : (l ++ MsLogistica.entradas rest) ++ [e] =
          l ++ (MsLogistica.entradas rest ++ [e]) := by rw [List.append_assoc]
      rw [h1, h2]
      exact List.Perm.append_left l List.perm_append_comm
    · rw [if_neg hk, entradas_cons, entradas_cons]
      have h2 : (l ++ MsLogistica.entradas rest) ++ [e] =
          l ++ (MsLogistica.entradas rest ++ [e]) := by rw [List.append_assoc]
      rw [h2]
      exact List.Perm.append_left l ih

/-- The entries of the built groups are exactly the accumulator's plus
those of the valid orders, up to order. -/
theorem entradas_buildGroups (detalle : Int → Option String × Option String)
    (ps : List Pedido) :
    ∀ gs, (entradas (buildGroups detalle ps gs)).Perm
      (entradas gs ++ entradasValidas detalle ps) := by
  induction ps with
  | nil => intro gs; simp [buildGroups, entradasValidas]
  | cons p rest ih =>
    intro gs
    cases hp : parsePid p.id with
    | none =>
      rw [buildGroups_cons_none detalle p rest gs hp,
        entradasValidas_cons_none detalle p rest hp]
      exact ih gs
    | some pid =>
      rw [buildGroups_cons_some detalle p rest gs pid hp,
        entradasValidas_cons_some detalle p rest pid hp]
      have h1 := ih (addToGroups gs (keyDe detalle p) (entradaDe detalle p pid))
      have h2 : (MsLogistica.entradas (addToGroups gs (keyDe detalle p)
          (entradaDe detalle p pid)) ++ entradasValidas detalle rest).Perm
          ((MsLogistica.entradas gs ++ [entradaDe detalle p pid]) ++
            entradasValidas detalle rest) :=
        List.Perm.append_right _ (entradas_addToGroups gs _ _)
      have h3 : (MsLogistica.entradas gs ++ [entradaDe detalle p pid]) ++
          entradasValidas detalle rest =
          MsLogistica.entradas gs ++
            (entradaDe detalle p pid :: entradasValidas detalle rest) := by
        rw [List.append_assoc]; rfl
      exact (h1.trans h2).trans (h3 ▸ List.Perm.refl _)

/-- The parsed ids of the valid entries are the parseable order ids, in
fetch order. -/
theorem entradasValidas_map_fst (detalle : Int → Option String × Option String)
    (ps : List Pedido) :
    (entradasValidas detalle ps).map (·.1) =
      ps.filterMap (fun p => parsePid p.id) := by
  induction ps with
  | nil => rfl
  | cons p rest ih =>
    cases hp : parsePid p.id with
    | none =>
      rw [entradasValidas_cons_none detalle p rest hp]
      simp [List.filterMap_cons, hp, ih]
    | some pid =>
      rw [entradasValidas_cons_some detalle p rest pid hp]
      simp [List.filterMap_cons, hp, entradaDe, ih]

/-- The group keyed `k` exists after `addToGroups gs k e` and holds `e`. -/
theorem mem_addToGroups_self (gs : List (GKey × List Entrada)) (k : GKey)
    (e : Entrada) : ∃ l, (k, l) ∈ addToGroups gs k e ∧ e ∈ l := by
  induction gs with
  | nil => exact ⟨[e], List.mem_singleton.mpr rfl, List.mem_singleton.mpr rfl⟩
  | cons g rest ih =>
    obtain ⟨k', l0⟩ := g
    unfold addToGroups
    by_cases hk : k' = k
    · subst hk
      exact ⟨l0 ++ [e], by rw [if_pos rfl]; exact List.mem_cons_self _ _,
        List.mem_append_right _ (List.mem_singleton.mpr rfl)⟩
    · obtain ⟨l, hmem, he⟩ := ih
      exact ⟨l, by rw [if_neg hk]; exact List.mem_cons_of_mem _ hmem, he⟩

/-- `addToGroups` never loses a group or any of its entries. -/
theorem addToGroups_preserva (gs : List (GKey × List Entrada)) (k : GKey)
    (e : Entrada) (k' : GKey) (l' : List Entrada) (hmem : (k', l') ∈ gs) :
    ∃ l'', (k', l'') ∈ addToGroups gs k e ∧ ∀ x ∈ l', x ∈ l'' := by
  induction gs with
  | nil => exact absurd hmem (List.not_mem_nil _)
  | cons g rest ih =>
    obtain ⟨k0, l0⟩ := g
    unfold addToGroups
    by_cases hk : k0 = k
    · rw [if_pos hk]
      rcases List.mem_cons.mp hmem with heq | hmem'
      · rw [Prod.mk.injEq] at heq
        obtain ⟨rfl, rfl⟩ := heq
        exact ⟨l' ++ [e], List.mem_cons_self _ _,
          fun x hx => List.mem_append_left _ hx⟩
      · exact ⟨l', List.mem_cons_of_mem _ hmem', fun x hx => hx⟩
    · rw [if_neg hk]
      rcases List.mem_cons.mp hmem with heq | hmem'
      · exact ⟨l', heq ▸ List.mem_cons_self _ _, fun x hx => hx⟩
      · obtain ⟨l'', hmem'', hsub⟩ := ih hmem'
        exact ⟨l'', List.mem_cons_of_mem _ hmem'', hsub⟩

/-- `buildGroups` never loses a group or any of its entries. -/
theorem buildGroups_preserva (detalle : Int → Option String × Option String)
    (ps : List Pedido) :
    ∀ gs k' l', (k', l') ∈ gs →
      ∃ l'', (k', l'') ∈ buildGroups detalle ps gs ∧ ∀ x ∈ l', x ∈ l'' := by
  induction ps with
  | nil => exact fun gs k' l' hmem => ⟨l', hmem, fun x hx => hx⟩
  | cons p rest ih =>
    intro gs k' l' hmem
    unfold buildGroups
    cases hp : parsePid p.id with
    | none => exact ih gs k' l' hmem
    | some pid =>
      obtain ⟨l'', hmem'', hsub⟩ := addToGroups_preserva gs _ _ k' l' hmem
      obtain ⟨l3, hmem3, hsub3⟩ := ih _ k' l'' hmem''
      exact ⟨l3, hmem3, fun x hx => hsub3 x (hsub x hx)⟩

/-- Every order with a parseable id ends up, as its entry, in the group
of its key. -/
theorem mem_buildGroups_de_pedido (detalle : Int → Option String × Option String)
    (ps : List Pedido) (ped : Pedido) (pid : Nat)
    (hped : ped ∈ ps) (hp : parsePid ped.id = some pid) :
    ∀ gs, ∃ l, (keyDe detalle ped, l) ∈ buildGroups detalle ps gs ∧
      entradaDe detalle ped pid ∈ l := by
  induction ps with
  | nil => exact absurd hped (List.not_mem_nil _)
  | cons p rest ih =>
    intro gs
    rcases List.mem_cons.mp hped with rfl | hped'
    · unfold buildGroups
      rw [hp]
      obtain ⟨l, hmem, he⟩ := mem_addToGroups_self gs (keyDe detalle ped)
        (entradaDe detalle ped pid)
      obtain ⟨l'', hmem'', hsub⟩ := buildGroups_preserva detalle rest _ _ _ hmem
      exact ⟨l'', hmem'', hsub _ he⟩
    · unfold buildGroups
      cases hq : parsePid p.id with
      | none => exact ih hped' gs
      | some pid' => exact ih hped' _

/-- `addToGroups` either reuses an existing key or appends the new one. -/
theorem keys_addToGroups (gs : List (GKey × List Entrada)) (k : GKey) (e : Entrada) :
    (addToGroups gs k e).map (·.1) =
      if k ∈ gs.map (·.1) then gs.map (·.1) else gs.map (·.1) ++ [k] := by
  induction gs with
  | nil => simp [addToGroups]
  | cons g rest ih =>
    obtain ⟨k', l⟩ := g
    unfold addToGroups
    by_cases hk : k' = k
    · subst hk
      rw [if_pos rfl]
      simp
    · rw [if_neg hk]
      by_cases hmem : k ∈ rest.map (·.1)
      · have : k ∈ ((k', l) :: rest).map (·.1) := by
          simp only [List.map_cons]
          exact List.mem_cons_of_mem _ hmem
        rw [if_pos this]
        simp only [List.map_cons, ih, if_pos hmem]
      · have : k ∉ ((k', l) :: rest).map (·.1) := by
          simp only [List.map_cons, List.mem_cons]
          rintro (h | h)
          · exact hk h.symm
          · exact hmem h
        rw [if_neg this]
        simp only [List.map_cons, ih, if_neg hmem]
        rfl

theorem nodup_keys_addToGroups (gs : List (GKey × List Entrada)) (k : GKey)
    (e : Entrada) (h : (gs.map (·.1)).Nodup) :
    ((addToGroups gs k e).map (·.1)).Nodup := by
  rw [keys_addToGroups]
  by_cases hmem : k ∈ gs.map (·.1)
  · rw [if_pos hmem]; exact h
  · rw [if_neg hmem]
    rw [List.nodup_append]
    exact ⟨h, List.nodup_singleton k,
      fun a ha hb => hmem ((List.mem_singleton.mp hb) ▸ ha)⟩

theorem nodup_keys_buildGroups (detalle : Int → Option String × Option String)
    (ps : List Pedido) :
    ∀ gs, (gs.map (·.1)).Nodup → ((buildGroups detalle ps gs).map (·.1)).Nodup := by
  induction ps with
  | nil => exact fun gs h => h
  | cons p rest ih =>
    intro gs h
    cases hp : parsePid p.id with
    | none => rw [buildGroups_cons_none detalle p rest gs hp]; exact ih gs h
    | some pid =>
      rw [buildGroups_cons_some detalle p rest gs pid hp]
      exact ih _ (nodup_keys_addToGroups gs _ _ h)

/-- In a list of groups whose keys are distinct, two groups with the
same key coincide. -/
theorem eq_de_misma_clave (gs : List (GKey × List Entrada)) (k : GKey)
    (l1 l2 : List Entrada) (h : (gs.map (·.1)).Nodup)
    (h1 : (k, l1) ∈ gs) (h2 : (k, l2) ∈ gs) : l1 = l2 := by
  induction gs with
  | nil => exact absurd h1 (List.not_mem_nil _)
  | cons g rest ih =>
    obtain ⟨k0, l0⟩ := g
    simp only [List.map_cons, List.nodup_cons] at h
    rcases List.mem_cons.mp h1 with heq1 | hm1 <;>
      rcases List.mem_cons.mp h2 with heq2 | hm2
    · rw [Prod.mk.injEq] at heq1 heq2
      rw [heq1.2, heq2.2]
    · rw [Prod.mk.injEq] at heq1
      exact absurd (List.mem_map.mpr ⟨(k, l2), hm2, heq1.1⟩) h.1
    · rw [Prod.mk.injEq] at heq2
      exact absurd (List.mem_map.mpr ⟨(k, l1), hm1, heq2.1⟩) h.1
    · exact ih h.2 hm1 hm2

/-- The order links of the created stops are exactly the group entries'
parsed ids, stop by stop. -/
theorem mkParadas_flat_pids (rutaId : Nat) (gs : List (GKey × List Entrada))
    (h : ∀ g ∈ gs, g.2 ≠ []) :
    ∀ nid idx, (mkParadas rutaId nid idx gs).flatMap (·.pedido_ids) =
      gs.flatMap (fun g => g.2.map (·.1)) := by
  induction gs with
  | nil => intro nid idx; rfl
  | cons g rest ih =>
    intro nid idx
    obtain ⟨k, lista⟩ := g
    cases lista with
    | nil => exact absurd rfl (h ⟨k, []⟩ (List.mem_cons_self _ _))
    | cons e tail =>
      obtain ⟨pid, cli, dir, ciu⟩ := e
      show ((⟨⟨nid, rutaId, cli, dir, ciu, ParadaEstado.PENDIENTE, idx + 1⟩,
          ((pid, cli, dir, ciu) :: tail).map (fun e => e.1)⟩ : ParadaConPedidos) ::
        mkParadas rutaId (nid + 1) (idx + 1) rest).flatMap (·.pedido_ids) = _
      rw [List.flatMap_cons, List.flatMap_cons,
        ih (fun g' hg' => h g' (List.mem_cons_of_mem _ hg')) (nid + 1) (idx + 1)]

/-- Every group produces a stop whose order links are the group's parsed
ids. -/
theorem mkParadas_de_grupo (rutaId : Nat) (gs : List (GKey × List Entrada))
    (h : ∀ g ∈ gs, g.2 ≠ []) (k : GKey) (l : List Entrada)
    (hmem : (k, l) ∈ gs) :
    ∀ nid idx, ∃ pc ∈ mkParadas rutaId nid idx gs,
      pc.pedido_ids = l.map (·.1) := by
  induction gs with
  | nil => exact absurd hmem (List.not_mem_nil _)
  | cons g rest ih =>
    intro nid idx
    obtain ⟨k0, lista⟩ := g
    cases lista with
    | nil => exact absurd rfl (h ⟨k0, []⟩ (List.mem_cons_self _ _))
    | cons e tail =>
      obtain ⟨pid, cli, dir, ciu⟩ := e
      rcases List.mem_cons.mp hmem with heq | hm
      · rw [Prod.mk.injEq] at heq
        exact ⟨⟨⟨nid, rutaId, cli, dir, ciu, ParadaEstado.PENDIENTE, idx + 1⟩,
            ((pid, cli, dir, ciu) :: tail).map (fun e => e.1)⟩,
          List.mem_cons_self _ _, by rw [heq.2]⟩
      · obtain ⟨pc, hpc, hids⟩ :=
          ih (fun g' hg' => h g' (List.mem_cons_of_mem _ hg')) hm (nid + 1) (idx + 1)
        exact ⟨pc, List.mem_cons_of_mem _ hpc, hids⟩

/-- C1: two fetched orders with parseable ids, the same customer id and
the same normalized address/city (in this code the enrichment is a
function of the customer id, so equal raw casing/whitespace variants of
the address normalize alike and cannot separate them) end up in exactly
one stop of the generated route, whose order links contain both ids.
The order ids of the fetch are assumed pairwise distinct. -/
theorem C1_agrupacion (s : Store) (fecha : String) (pedidos : List Pedido)
    (detalle : Int → Option String × Option String) (nextId : Nat)
    (res : GenResult) (ped1 ped2 : Pedido) (pid1 pid2 : Nat)
    (h1 : ped1 ∈ pedidos) (h2 : ped2 ∈ pedidos)
    (hp1 : parsePid ped1.id = some pid1) (hp2 : parsePid ped2.id = some pid2)
    (hcli : ped1.cliente_id = ped2.cliente_id)
    (hdir : _normalize (dirDe detalle ped1) = _normalize (dirDe detalle ped2))
    (hciu : _normalize (ciuDe detalle ped1) = _normalize (ciuDe detalle ped2))
    (hnodup : (pedidos.filterMap (fun p => parsePid p.id)).Nodup)
    (hok : generar_ruta s fecha pedidos detalle nextId = .ok res) :
    ∃! pc, pc ∈ res.paradas ∧ pid1 ∈ pc.pedido_ids ∧ pid2 ∈ pc.pedido_ids := by
  unfold generar_ruta at hok
  split at hok
  · exact absurd hok (by simp)
  split at hok
  · exact absurd hok (by simp)
  rw [Except.ok.injEq] at hok
  subst hok
  have hkey : keyDe detalle ped1 = keyDe detalle ped2 := by
    unfold keyDe
    rw [hcli, hdir, hciu]
  -- the two orders land in the same group of the (unsorted) group list
  obtain ⟨l1, hl1, he1⟩ :=
    mem_buildGroups_de_pedido detalle pedidos ped1 pid1 h1 hp1 []
  obtain ⟨l2, hl2, he2⟩ :=
    mem_buildGroups_de_pedido detalle pedidos ped2 pid2 h2 hp2 []
  rw [← hkey] at hl2
  have hkeys : ((buildGroups detalle pedidos []).map (·.1)).Nodup :=
    nodup_keys_buildGroups detalle pedidos [] (by simp)
  have heql : l1 = l2 :=
    eq_de_misma_clave (buildGroups detalle pedidos []) _ l1 l2 hkeys hl1 hl2
  rw [← heql] at he2
  -- transfer to the sorted group list and to the created stops
  have hmem_s : (keyDe detalle ped1, l1) ∈ gruposOrdenados detalle pedidos :=
    (List.perm_insertionSort grupoLe _).mem_iff.mpr hl1
  have hgne := gruposOrdenados_ne_nil detalle pedidos
  obtain ⟨pc, hpc, hpcids⟩ :=
    mkParadas_de_grupo nextId (gruposOrdenados detalle pedidos) hgne _ l1
      hmem_s (nextId + 1) 0
  have hin1 : pid1 ∈ pc.pedido_ids := by
    rw [hpcids]
    exact List.mem_map.mpr ⟨entradaDe detalle ped1 pid1, he1, rfl⟩
  have hin2 : pid2 ∈ pc.pedido_ids := by
    rw [hpcids]
    exact List.mem_map.mpr ⟨entradaDe detalle ped2 pid2, he2, rfl⟩
  -- the created stops have pairwise disjoint order links
  have hflat := mkParadas_flat_pids nextId (gruposOrdenados detalle pedidos)
    hgne (nextId + 1) 0
  have hmapflat : (gruposOrdenados detalle pedidos).flatMap (fun g => g.2.map (·.1)) =
      (entradas (gruposOrdenados detalle pedidos)).map (·.1) := by
    rw [entradas, List.map_flatMap]
  have hperm1 : (entradas (gruposOrdenados detalle pedidos)).Perm
      (entradas (buildGroups detalle pedidos [])) :=
    List.Perm.flatMap_right _ (List.perm_insertionSort grupoLe _)
  have hperm2 : (entradas (buildGroups detalle pedidos [])).Perm
      (entradasValidas detalle pedidos) := by
    have h := entradas_buildGroups detalle pedidos []
    simpa [entradas] using h
  have hpermids : ((entradas (gruposOrdenados detalle pedidos)).map (·.1)).Perm
      (pedidos.filterMap (fun p => parsePid p.id)) := by
    rw [← entradasValidas_map_fst detalle pedidos]
    exact (hperm1.trans hperm2).map _
  have hnodupflat : ((mkParadas nextId (nextId + 1) 0
      (gruposOrdenados detalle pedidos)).flatMap (·.pedido_ids)).Nodup := by
    rw [hflat, hmapflat]
    exact hpermids.nodup_iff.mpr hnodup
  obtain ⟨-, hdisj⟩ := List.nodup_flatMap.mp hnodupflat
  refine ⟨pc, ⟨hpc, hin1, hin2⟩, ?_⟩
  rintro pc' ⟨hpc', hq1, -⟩
  by_contra hne
  have hsym : Symmetric (List.Disjoint on fun pc : ParadaConPedidos => pc.pedido_ids) :=
    fun a b hab x hx hy => hab hy hx
  exact hdisj.forall hsym hpc' hpc hne hq1 hin1

/-- Witness for C1: two orders of customer 1 share the single stop. -/
theorem C1_agrupacion_witness :
    ∃! pc, pc ∈ (⟨⟨[⟨100, "d", RutaEstado.PLANEADA⟩],
        [⟨101, 100, some 1, some (" Calle 1 "), some ("Cali"),
          ParadaEstado.PENDIENTE, 1⟩],
        [⟨101, 1⟩, ⟨101, 2⟩]⟩,
       ⟨100, "d", RutaEstado.PLANEADA⟩,
       [⟨⟨101, 100, some 1, some (" Calle 1 "), some ("Cali"),
          ParadaEstado.PENDIENTE, 1⟩, [1, 2]⟩],
       [1, 2]⟩ : GenResult).paradas ∧
      1 ∈ pc.pedido_ids ∧ 2 ∈ pc.pedido_ids :=
  C1_agrupacion ⟨[], [], []⟩ ("d")
    [⟨some ("00000000000000000000000000000001"), some 1⟩,
     ⟨some ("00000000000000000000000000000002"), some 1⟩]
    (fun _ => (some (" Calle 1 "), some ("Cali"))) 100
    ⟨⟨[⟨100, "d", RutaEstado.PLANEADA⟩],
      [⟨101, 100, some 1, some (" Calle 1 "), some ("Cali"),
        ParadaEstado.PENDIENTE, 1⟩],
      [⟨101, 1⟩, ⟨101, 2⟩]⟩,
     ⟨100, "d", RutaEstado.PLANEADA⟩,
     [⟨⟨101, 100, some 1, some (" Calle 1 "), some ("Cali"),
        ParadaEstado.PENDIENTE, 1⟩, [1, 2]⟩],
     [1, 2]⟩
    ⟨some ("00000000000000000000000000000001"), some 1⟩
    ⟨some ("00000000000000000000000000000002"), some 1⟩
    1 2 (by decide) (by decide) (by decide) (by decide) rfl rfl rfl
    (by decide) (by rfl)

end MsLogistica
